import Mathlib

/-!
Verification development for the financial-dashboard script `dashboard.py`.

The script ingests a CSV of transactions (columns `date`, `debit`, `credit`),
derives a per-row `net_amount`, aggregates it monthly (sum / mean / median via
month-end resampling) and per weekday (Monday–Friday), merges the monthly
tables on a display month label, and renders charts.

Numeric values are embedded as exact rationals (`ℚ`); dates as calendar
triples with the Gregorian weekday computed by Zeller's congruence, matching
pandas' `dayofweek` convention (Monday = 0 … Sunday = 6).
-/

set_option autoImplicit false

namespace Dashboard

/-- A calendar date as stored in the parsed `date` column. -/
structure Date where
  year : ℤ
  month : ℕ
  day : ℕ
deriving DecidableEq

/-- One transaction row of the uploaded file, with the full schema
(`date`, `debit`, `credit`) present.  Column values are embedded as exact
rationals. -/
structure Row where
  date : Date
  debit : ℚ
  credit : ℚ
deriving DecidableEq

/-- Embedding of `calculate_net_amount(row, analysis_type)` (dashboard.py
lines 201–211) over schema-complete rows.  The Python function returns a
value in the two recognised branches and falls through (returning `None`)
for any other `analysis_type` string; we model the result as `Option ℚ`. -/
def calculate_net_amount (row : Row) (analysis_type : String) : Option ℚ :=
  if analysis_type = "Credit Based" then
    if row.credit - row.debit = 0 then some 0
    else some (row.credit - row.debit)
  else if analysis_type = "Debit Based" then
    if row.debit - row.credit = 0 then some 0
    else some (row.debit - row.credit)
  else none

/-- The `analysis_type` string the caller passes at dashboard.py line 50. -/
def main_analysis_type : String := "Credit Based"

/-- The derived `net_amount` column attached by `main` (dashboard.py lines
49–52): `calculate_net_amount` applied with the caller's analysis type.
With `"Credit Based"` the function always returns a value, so the default
of `getD` is never used. -/
def net_amount (r : Row) : ℚ :=
  (calculate_net_amount r main_analysis_type).getD 0

/-- Gregorian weekday of a date by Zeller's congruence, converted to the
pandas `dayofweek` convention used by `df.index.dayofweek`:
Monday = 0, …, Saturday = 5, Sunday = 6. -/
def dayofweek (d : Date) : ℕ :=
  let m : ℤ := if d.month ≤ 2 then (d.month : ℤ) + 12 else (d.month : ℤ)
  let y : ℤ := if d.month ≤ 2 then d.year - 1 else d.year
  let K : ℤ := y.emod 100
  let J : ℤ := y.ediv 100
  let h : ℤ :=
    ((d.day : ℤ) + (13 * (m + 1)).ediv 5 + K + K.ediv 4 + J.ediv 4 + 5 * J).emod 7
  ((h + 5).emod 7).toNat

/-- Weekday display name, as produced by `strftime("%A")`. -/
def day_name_str : ℕ → String
  | 0 => "Monday"
  | 1 => "Tuesday"
  | 2 => "Wednesday"
  | 3 => "Thursday"
  | 4 => "Friday"
  | 5 => "Saturday"
  | 6 => "Sunday"
  | _ => ""

/-- Full month name, as produced by `strftime("%B")`. -/
def month_name_str : ℕ → String
  | 1 => "January"
  | 2 => "February"
  | 3 => "March"
  | 4 => "April"
  | 5 => "May"
  | 6 => "June"
  | 7 => "July"
  | 8 => "August"
  | 9 => "September"
  | 10 => "October"
  | 11 => "November"
  | 12 => "December"
  | _ => ""

/-- Month bucket of a date: the key of the month-end (`"ME"`) resampling
bin the row falls into, encoded as `year * 12 + (month - 1)`. -/
def monthKey (d : Date) : ℤ :=
  d.year * 12 + ((d.month : ℤ) - 1)

/-- The display label `strftime("%B %Y")` attached to a month bucket
(dashboard.py lines 62–68).  The string `"<FullMonthName> <Year>"` is in
bijection with the (name, year) pair since the twelve month names are
pairwise distinct and the format is fixed, so we embed the label as that
pair. -/
structure MonthLabel where
  name : String
  year : ℤ
deriving DecidableEq

/-- Label of a month bucket key. -/
def monthLabel (k : ℤ) : MonthLabel :=
  ⟨month_name_str ((k.emod 12).toNat + 1), k.ediv 12⟩

/-- Smallest month-bucket key among the rows (`0` for an empty list, where
it is never used: resampling an empty frame yields an empty frame). -/
def minMonthKey : List Row → ℤ
  | [] => 0
  | r :: rs => (rs.map (fun x => monthKey x.date)).foldl min (monthKey r.date)

/-- Largest month-bucket key among the rows. -/
def maxMonthKey : List Row → ℤ
  | [] => 0
  | r :: rs => (rs.map (fun x => monthKey x.date)).foldl max (monthKey r.date)

/-- The month-end bins generated by `df.resample("ME")`: one bin per
calendar month from the earliest to the latest date in the frame,
inclusive, whether or not any row falls in it. -/
def spanKeys (rows : List Row) : List ℤ :=
  if rows.isEmpty then []
  else
    (List.range (maxMonthKey rows - minMonthKey rows + 1).toNat).map
      (fun (i : ℕ) => minMonthKey rows + (i : ℤ))

/-- One row of the `resample("ME").sum()` result (dashboard.py lines
174–180): all numeric columns (`debit`, `credit`, `net_amount`) summed over
the rows of the bin; an empty bin sums to `0`. -/
structure MonthlySumRow where
  key : ℤ
  debit : ℚ
  credit : ℚ
  net_amount : ℚ
deriving DecidableEq

/-- Embedding of `compute_monthly_sum` (dashboard.py lines 174–180).  The
`reset_index` / `set_index` round trip in the source leaves the bin index
unchanged, so it is not modelled separately. -/
def compute_monthly_sum (rows : List Row) : List MonthlySumRow :=
  (spanKeys rows).map (fun k =>
    { key := k
      debit := ((rows.filter (fun r => decide (monthKey r.date = k))).map (fun r => r.debit)).sum
      credit := ((rows.filter (fun r => decide (monthKey r.date = k))).map (fun r => r.credit)).sum
      net_amount := ((rows.filter (fun r => decide (monthKey r.date = k))).map net_amount).sum })

/-- Arithmetic mean as computed by pandas `mean()`: `NaN` (here `none`)
over an empty bin. -/
def qmean (xs : List ℚ) : Option ℚ :=
  if xs.isEmpty then none else some (xs.sum / (xs.length : ℚ))

/-- Insert into a sorted list of rationals. -/
def insertSorted (x : ℚ) : List ℚ → List ℚ
  | [] => [x]
  | y :: ys => if x ≤ y then x :: y :: ys else y :: insertSorted x ys

/-- Sort a list of rationals ascending (insertion sort). -/
def sortQ : List ℚ → List ℚ
  | [] => []
  | x :: xs => insertSorted x (sortQ xs)

/-- Median as computed by pandas `median()`: middle element of the sorted
values for odd length, mean of the two middle elements for even length,
`NaN` (here `none`) over an empty bin. -/
def qmedian (xs : List ℚ) : Option ℚ :=
  if xs.isEmpty then none
  else
    let s := sortQ xs
    let n := s.length
    if n % 2 = 1 then some (s.getD (n / 2) 0)
    else some ((s.getD (n / 2 - 1) 0 + s.getD (n / 2) 0) / 2)

/-- One row of the `resample("ME").mean()` or `.median()` result: every
numeric column reduced per bin, `none` (pandas `NaN`) for empty bins. -/
structure MonthlyAggRow where
  key : ℤ
  debit : Option ℚ
  credit : Option ℚ
  net_amount : Option ℚ
deriving DecidableEq

/-- Embedding of `compute_monthly_average` (dashboard.py lines 183–189). -/
def compute_monthly_average (rows : List Row) : List MonthlyAggRow :=
  (spanKeys rows).map (fun k =>
    { key := k
      debit := qmean ((rows.filter (fun r => decide (monthKey r.date = k))).map (fun r => r.debit))
      credit := qmean ((rows.filter (fun r => decide (monthKey r.date = k))).map (fun r => r.credit))
      net_amount := qmean ((rows.filter (fun r => decide (monthKey r.date = k))).map net_amount) })

/-- Embedding of `compute_monthly_median` (dashboard.py lines 192–198). -/
def compute_monthly_median (rows : List Row) : List MonthlyAggRow :=
  (spanKeys rows).map (fun k =>
    { key := k
      debit := qmedian ((rows.filter (fun r => decide (monthKey r.date = k))).map (fun r => r.debit))
      credit := qmedian ((rows.filter (fun r => decide (monthKey r.date = k))).map (fun r => r.credit))
      net_amount := qmedian ((rows.filter (fun r => decide (monthKey r.date = k))).map net_amount) })

/-- Inner merge of two tables on equal key labels, as `pd.merge(left,
right, how="inner", on=...)`: left rows in order, each paired with every
right row carrying the same label. -/
def innerMerge {α β : Type} (kl : α → MonthLabel) (kr : β → MonthLabel) :
    List α → List β → List (α × β)
  | [], _ => []
  | a :: as, right =>
      ((right.filter (fun b => decide (kr b = kl a))).map (fun b => (a, b)))
        ++ innerMerge kl kr as right

/-- One row of the final `merged_df` (dashboard.py lines 87–96), after
column projection `[month_name, debit, credit, sum_net_amount,
avg_net_amount, median_net_amount]`. -/
structure MergedRow where
  month_name : MonthLabel
  debit : ℚ
  credit : ℚ
  sum_net_amount : ℚ
  avg_net_amount : Option ℚ
  median_net_amount : Option ℚ
deriving DecidableEq

/-- The merged monthly table built by `main` (dashboard.py lines 54–96):
label each monthly table with `strftime("%B %Y")` of its bin, inner-merge
sum with average on the label, then with median, and project the display
columns. -/
def merged_monthly (rows : List Row) : List MergedRow :=
  (innerMerge (fun p => monthLabel p.1.key) (fun m => monthLabel m.key)
      (innerMerge (fun s => monthLabel s.key) (fun a => monthLabel a.key)
        (compute_monthly_sum rows) (compute_monthly_average rows))
      (compute_monthly_median rows)).map
    (fun p =>
      { month_name := monthLabel p.1.1.key
        debit := p.1.1.debit
        credit := p.1.1.credit
        sum_net_amount := p.1.1.net_amount
        avg_net_amount := p.1.2.net_amount
        median_net_amount := p.2.net_amount })

/-- Look up a merged row by its month label. -/
def mergedLookup (t : List MergedRow) (lab : MonthLabel) : Option MergedRow :=
  t.find? (fun r => decide (r.month_name = lab))

/-- One row of the weekday table returned by `compute_weekday_sum`:
group label (the index), the summed numeric columns (`none` where the
reindex found no group, pandas `NaN`), and the appended `day` display
column. -/
structure WeekdayRow where
  day_name : String
  debit : Option ℚ
  credit : Option ℚ
  net_amount : Option ℚ
  day : String
deriving DecidableEq

/-- Embedding of `compute_weekday_sum` (dashboard.py lines 164–171):
keep rows with `dayofweek < 5`, group by `strftime("%A")` name summing the
numeric columns, reindex onto the fixed order Monday–Friday (absent groups
become missing-value rows), and attach the index as a `day` column. -/
def compute_weekday_sum (rows : List Row) : List WeekdayRow :=
  let wd := rows.filter (fun r => decide (dayofweek r.date < 5))
  let re_order := ["Monday", "Tuesday", "Wednesday", "Thursday", "Friday"]
  re_order.map (fun nm =>
    let grp := wd.filter (fun r => decide (day_name_str (dayofweek r.date) = nm))
    { day_name := nm
      debit := if grp.isEmpty then none else some ((grp.map (fun r => r.debit)).sum)
      credit := if grp.isEmpty then none else some ((grp.map (fun r => r.credit)).sum)
      net_amount := if grp.isEmpty then none else some ((grp.map net_amount).sum)
      day := nm })

/-- The page rendered by `main` (dashboard.py lines 40–161): when the
parsed frame is empty the whole derivation-and-charts block under
`if not og_df.empty:` is skipped and only the upload control shows;
otherwise the dashboard branch holds the two tables the three charts are
bound to (monthly charts read `merged_df`, the weekday chart reads
`weekday_df`). -/
inductive RenderedPage where
  | uploadOnly : RenderedPage
  | dashboard : List MergedRow → List WeekdayRow → RenderedPage

/-- Embedding of the data-dependent control flow of `main` after the file
is parsed. -/
def main_render (rows : List Row) : RenderedPage :=
  if rows.isEmpty then RenderedPage.uploadOnly
  else RenderedPage.dashboard (merged_monthly rows) (compute_weekday_sum rows)

/-- A row of the uploaded frame viewed as pandas sees it: a finite map
from column names to numeric values.  This view is needed to state what
happens when a required column is absent from the file. -/
abbrev RawRow := List (String × ℚ)

/-- Dynamic column access `row[c]`: pandas raises `KeyError: c` when the
column is absent, embedded as an `Except` error. -/
def getCol (row : RawRow) (c : String) : Except String ℚ :=
  match row.find? (fun p => decide (p.1 = c)) with
  | some p => Except.ok p.2
  | none => Except.error ("KeyError: " ++ c)

/-- Embedding of `calculate_net_amount(row, analysis_type)` (dashboard.py
lines 201–211) over raw rows with dynamic column access.  Python evaluates
`row["credit"] - row["debit"]` left to right, so in the credit-based
branch `credit` is accessed first, and in the debit-based branch `debit`
is accessed first; the first missing access aborts with its `KeyError`. -/
def calculate_net_amount_dyn (row : RawRow) (analysis_type : String) :
    Except String (Option ℚ) :=
  if analysis_type = "Credit Based" then
    match getCol row "credit" with
    | Except.error e => Except.error e
    | Except.ok c =>
      match getCol row "debit" with
      | Except.error e => Except.error e
      | Except.ok d =>
          if c - d = 0 then Except.ok (some 0) else Except.ok (some (c - d))
  else if analysis_type = "Debit Based" then
    match getCol row "debit" with
    | Except.error e => Except.error e
    | Except.ok d =>
      match getCol row "credit" with
      | Except.error e => Except.error e
      | Except.ok c =>
          if d - c = 0 then Except.ok (some 0) else Except.ok (some (d - c))
  else Except.ok none

/-- The net-amount derivation step `og_df.apply(lambda x:
calculate_net_amount(x, "Credit Based"), axis=1)` (dashboard.py lines
49–52) over raw rows: the first row whose column access raises aborts the
whole step with that error. -/
def apply_net_amount : List RawRow → Except String (List (Option ℚ))
  | [] => Except.ok []
  | r :: rs =>
    match calculate_net_amount_dyn r "Credit Based" with
    | Except.error e => Except.error e
    | Except.ok v =>
      match apply_net_amount rs with
      | Except.error e => Except.error e
      | Except.ok vs => Except.ok (v :: vs)

/-- Outcome of one run of the app, as observed by the user.  `crashed` is
the outcome the spec rules out; `run_app` never produces it. -/
inductive AppOutcome where
  | page : RenderedPage → AppOutcome
  | errorMessage : String → AppOutcome
  | crashed : AppOutcome

/-- Modelled from the spec: the hosting UI runtime (Streamlit) is not part
of src/; per §7 of the spec, a failure anywhere in the pipeline is
"propagated as an unhandled failure surfaced by the hosting runtime as a
generic error message" while the process keeps serving.  `run_app` runs a
pipeline stage and either renders its page or surfaces the error; it has
no crash outcome. -/
def run_app {α : Type} (pipeline : Except String α) (render : α → RenderedPage) :
    AppOutcome :=
  match pipeline with
  | Except.ok a => AppOutcome.page (render a)
  | Except.error e => AppOutcome.errorMessage e

/-! ## Helper lemmas about the resampling span and bucket sums -/

lemma foldl_min_le_init (l : List ℤ) (a : ℤ) : l.foldl min a ≤ a := by
  induction l generalizing a with
  | nil => exact le_refl a
  | cons b l ih => exact le_trans (ih (min a b)) (min_le_left a b)

lemma foldl_min_le_mem (l : List ℤ) (a x : ℤ) (hx : x ∈ l) : l.foldl min a ≤ x := by
  induction l generalizing a with
  | nil => cases hx
  | cons b l ih =>
      rcases List.mem_cons.mp hx with h | h
      · subst h
        exact le_trans (foldl_min_le_init l (min a x)) (min_le_right a x)
      · exact ih (min a b) h

lemma le_foldl_max_init (l : List ℤ) (a : ℤ) : a ≤ l.foldl max a := by
  induction l generalizing a with
  | nil => exact le_refl a
  | cons b l ih => exact le_trans (le_max_left a b) (ih (max a b))

lemma le_foldl_max_mem (l : List ℤ) (a x : ℤ) (hx : x ∈ l) : x ≤ l.foldl max a := by
  induction l generalizing a with
  | nil => cases hx
  | cons b l ih =>
      rcases List.mem_cons.mp hx with h | h
      · subst h
        exact le_trans (le_max_right a x) (le_foldl_max_init l (max a x))
      · exact ih (max a b) h

lemma minMonthKey_le {rows : List Row} {r : Row} (hr : r ∈ rows) :
    minMonthKey rows ≤ monthKey r.date := by
  cases rows with
  | nil => cases hr
  | cons r0 rs =>
      rcases List.mem_cons.mp hr with h | h
      · subst h
        exact foldl_min_le_init _ _
      · exact foldl_min_le_mem _ _ _ (List.mem_map.mpr ⟨r, h, rfl⟩)

lemma le_maxMonthKey {rows : List Row} {r : Row} (hr : r ∈ rows) :
    monthKey r.date ≤ maxMonthKey rows := by
  cases rows with
  | nil => cases hr
  | cons r0 rs =>
      rcases List.mem_cons.mp hr with h | h
      · subst h
        exact le_foldl_max_init _ _
      · exact le_foldl_max_mem _ _ _ (List.mem_map.mpr ⟨r, h, rfl⟩)

lemma mem_spanKeys {rows : List Row} {r : Row} (hr : r ∈ rows) :
    monthKey r.date ∈ spanKeys rows := by
  have hne : rows.isEmpty = false := by
    cases rows with
    | nil => cases hr
    | cons a l => rfl
  have h1 := minMonthKey_le hr
  have h2 := le_maxMonthKey hr
  unfold spanKeys
  rw [hne]
  simp only [Bool.false_eq_true, if_false]
  refine List.mem_map.mpr
    ⟨(monthKey r.date - minMonthKey rows).toNat, List.mem_range.mpr (by omega), by omega⟩

lemma spanKeys_nodup (rows : List Row) : (spanKeys rows).Nodup := by
  unfold spanKeys
  split
  · exact List.nodup_nil
  · refine List.Nodup.map ?_ (List.nodup_range _)
    intro i j hij
    simp only [] at hij
    omega

lemma spanKeys_length (rows : List Row) (hne : rows ≠ []) :
    (spanKeys rows).length = (maxMonthKey rows - minMonthKey rows + 1).toNat := by
  have h : rows.isEmpty = false := by
    cases rows with
    | nil => exact absurd rfl hne
    | cons a l => rfl
  unfold spanKeys
  rw [h]
  simp

lemma sum_map_add (K : List ℤ) (g h2 : ℤ → ℚ) :
    (K.map (fun k => g k + h2 k)).sum = (K.map g).sum + (K.map h2).sum := by
  induction K with
  | nil => simp
  | cons k K ih =>
      simp only [List.map_cons, List.sum_cons, ih]
      ring

lemma sum_if_not_mem (K : List ℤ) (k0 : ℤ) (c : ℚ) (hk : k0 ∉ K) :
    (K.map (fun k => if k0 = k then c else 0)).sum = 0 := by
  induction K with
  | nil => rfl
  | cons k K ih =>
      have h1 : k0 ≠ k := fun h => hk (h ▸ List.mem_cons_self k K)
      have h2 : k0 ∉ K := fun h => hk (List.mem_cons_of_mem _ h)
      simp [h1, ih h2]

lemma sum_if_mem (K : List ℤ) (k0 : ℤ) (c : ℚ) (hnd : K.Nodup) (hk : k0 ∈ K) :
    (K.map (fun k => if k0 = k then c else 0)).sum = c := by
  induction K with
  | nil => cases hk
  | cons k K ih =>
      obtain ⟨hknm, hKnd⟩ := List.nodup_cons.mp hnd
      rcases List.mem_cons.mp hk with h | h
      · subst h
        simp [sum_if_not_mem K k0 c hknm]
      · have h1 : k0 ≠ k := fun he => hknm (he ▸ h)
        simp [h1, ih hKnd h]

lemma sum_partition (f : Row → ℚ) (K : List ℤ) (rows : List Row)
    (hnd : K.Nodup) (hcov : ∀ r ∈ rows, monthKey r.date ∈ K) :
    (K.map (fun k =>
      ((rows.filter (fun r => decide (monthKey r.date = k))).map f).sum)).sum
      = (rows.map f).sum := by
  induction rows with
  | nil => simp
  | cons r rest ih =>
      have hrw : (fun k =>
            (((r :: rest).filter (fun x => decide (monthKey x.date = k))).map f).sum)
          = fun k => (if monthKey r.date = k then f r else 0)
              + ((rest.filter (fun x => decide (monthKey x.date = k))).map f).sum := by
        funext k
        by_cases h : monthKey r.date = k
        · simp [List.filter_cons, h]
        · simp [List.filter_cons, h]
      rw [hrw, sum_map_add, sum_if_mem K _ _ hnd (hcov r (List.mem_cons_self r rest)),
        ih (fun x hx => hcov x (List.mem_cons_of_mem _ hx))]
      simp

/-! ## Helper lemmas about month labels and the inner merge -/

lemma month_name_str_inj_lt :
    ∀ a < 12, ∀ b < 12, month_name_str (a + 1) = month_name_str (b + 1) → a = b := by
  decide

lemma monthLabel_inj {k1 k2 : ℤ} (h : monthLabel k1 = monthLabel k2) : k1 = k2 := by
  unfold monthLabel at h
  have hname : month_name_str ((k1.emod 12).toNat + 1)
      = month_name_str ((k2.emod 12).toNat + 1) := congrArg MonthLabel.name h
  have hyear : k1 / 12 = k2 / 12 := congrArg MonthLabel.year h
  have hname2 : month_name_str ((k1 % 12).toNat + 1)
      = month_name_str ((k2 % 12).toNat + 1) := hname
  have hmod : (k1 % 12).toNat = (k2 % 12).toNat :=
    month_name_str_inj_lt (k1 % 12).toNat (by omega) (k2 % 12).toNat (by omega) hname2
  omega

lemma filter_key_eq_nil (K : List ℤ) (k : ℤ) (hk : k ∉ K) :
    K.filter (fun x => decide (x = k)) = [] := by
  induction K with
  | nil => rfl
  | cons a K ih =>
      have h1 : a ≠ k := fun he => hk (he ▸ List.mem_cons_self a K)
      have h2 : k ∉ K := fun h => hk (List.mem_cons_of_mem _ h)
      simp [List.filter_cons, h1, ih h2]

lemma length_filter_key_eq (K : List ℤ) (k : ℤ) (hnd : K.Nodup) (hk : k ∈ K) :
    (K.filter (fun x => decide (x = k))).length = 1 := by
  induction K with
  | nil => cases hk
  | cons a K ih =>
      obtain ⟨hanm, hKnd⟩ := List.nodup_cons.mp hnd
      rcases List.mem_cons.mp hk with h | h
      · subst h
        simp [List.filter_cons, filter_key_eq_nil K k hanm]
      · have h1 : a ≠ k := fun he => hanm (he ▸ h)
        simp [List.filter_cons, h1, ih hKnd h]

lemma length_filter_label_eq (K : List ℤ) (k : ℤ) (hnd : K.Nodup) (hk : k ∈ K) :
    (K.filter (fun x => decide (monthLabel x = monthLabel k))).length = 1 := by
  have hcongr : K.filter (fun x => decide (monthLabel x = monthLabel k))
      = K.filter (fun x => decide (x = k)) := by
    apply List.filter_congr
    intro x hx
    by_cases h : x = k
    · simp [h]
    · have hlab : monthLabel x ≠ monthLabel k := fun he => h (monthLabel_inj he)
      simp [h, hlab]
  rw [hcongr, length_filter_key_eq K k hnd hk]

lemma length_filter_map {α β : Type} (f : α → β) (p : β → Bool) (l : List α) :
    ((l.map f).filter p).length = (l.filter (fun x => p (f x))).length := by
  induction l with
  | nil => rfl
  | cons a l ih =>
      simp only [List.map_cons, List.filter_cons]
      cases p (f a) <;> simp [ih]

lemma innerMerge_length {α β : Type} (kl : α → MonthLabel) (kr : β → MonthLabel)
    (left : List α) (right : List β)
    (h : ∀ a ∈ left, (right.filter (fun b => decide (kr b = kl a))).length = 1) :
    (innerMerge kl kr left right).length = left.length := by
  induction left with
  | nil => rfl
  | cons a as ih =>
      simp only [innerMerge, List.length_append, List.length_map, List.length_cons]
      rw [h a (List.mem_cons_self a as), ih (fun x hx => h x (List.mem_cons_of_mem _ hx))]
      omega

lemma innerMerge_mem_left {α β : Type} (kl : α → MonthLabel) (kr : β → MonthLabel)
    (left : List α) (right : List β) (p : α × β)
    (hp : p ∈ innerMerge kl kr left right) : p.1 ∈ left := by
  induction left with
  | nil => cases hp
  | cons a as ih =>
      simp only [innerMerge] at hp
      rcases List.mem_append.mp hp with h | h
      · obtain ⟨b, hb, hba⟩ := List.mem_map.mp h
        rw [← hba]
        exact List.mem_cons_self a as
      · exact List.mem_cons_of_mem _ (ih h)

lemma monthly_sum_key_mem {rows : List Row} {s : MonthlySumRow}
    (hs : s ∈ compute_monthly_sum rows) : s.key ∈ spanKeys rows := by
  unfold compute_monthly_sum at hs
  obtain ⟨k, hk, hks⟩ := List.mem_map.mp hs
  rw [← hks]
  exact hk

lemma average_label_count {rows : List Row} {k : ℤ} (hk : k ∈ spanKeys rows) :
    ((compute_monthly_average rows).filter
      (fun m => decide (monthLabel m.key = monthLabel k))).length = 1 := by
  unfold compute_monthly_average
  rw [length_filter_map]
  show ((spanKeys rows).filter (fun x => decide (monthLabel x = monthLabel k))).length = 1
  exact length_filter_label_eq _ _ (spanKeys_nodup rows) hk

lemma median_label_count {rows : List Row} {k : ℤ} (hk : k ∈ spanKeys rows) :
    ((compute_monthly_median rows).filter
      (fun m => decide (monthLabel m.key = monthLabel k))).length = 1 := by
  unfold compute_monthly_median
  rw [length_filter_map]
  show ((spanKeys rows).filter (fun x => decide (monthLabel x = monthLabel k))).length = 1
  exact length_filter_label_eq _ _ (spanKeys_nodup rows) hk

/-- A two-row input whose months (January and March 2024) are not
contiguous: the February resampling bin gets a merged row even though no
record falls in February. -/
def gap_rows : List Row :=
  [{ date := ⟨2024, 1, 5⟩, debit := 1, credit := 2 },
   { date := ⟨2024, 3, 5⟩, debit := 1, credit := 4 }]

/-- Number of distinct calendar months that actually occur in the input. -/
def distinct_month_count (rows : List Row) : ℕ :=
  ((rows.map (fun r => monthKey r.date)).dedup).length

/-- The three-row scenario input from the spec's testable properties:
2024-01-05 debit 10 credit 40, 2024-01-20 debit 5 credit 5,
2024-02-01 debit 0 credit 20. -/
def scenario_rows : List Row :=
  [{ date := ⟨2024, 1, 5⟩, debit := 10, credit := 40 },
   { date := ⟨2024, 1, 20⟩, debit := 5, credit := 5 },
   { date := ⟨2024, 2, 1⟩, debit := 0, credit := 20 }]

/-! ## Claim theorems -/

set_option maxRecDepth 100000

/-- C1: for every record, the credit-based net amount equals credit minus
debit, and when the difference is zero the function returns the literal
zero produced by its explicit zero branch (the source's guard against a
negative-zero float; in this exact-arithmetic embedding zero has a single
representation, so the two conjuncts agree). -/
theorem net_amount_credit_based_spec (r : Row) :
    calculate_net_amount r "Credit Based" = some (r.credit - r.debit) ∧
    (r.credit - r.debit = 0 → calculate_net_amount r "Credit Based" = some 0) := by
  unfold calculate_net_amount
  rw [if_pos rfl]
  by_cases h : r.credit - r.debit = 0
  · rw [if_pos h]
    exact ⟨by rw [h], fun _ => rfl⟩
  · rw [if_neg h]
    exact ⟨rfl, fun hz => absurd hz h⟩

/-- Witness for C1 at a concrete record with credit = debit. -/
theorem net_amount_credit_based_spec_witness :
    calculate_net_amount ⟨⟨2024, 1, 5⟩, 3, 3⟩ "Credit Based" = some 0 :=
  (net_amount_credit_based_spec ⟨⟨2024, 1, 5⟩, 3, 3⟩).2 (by norm_num)

/-- C8: a debit-based strategy exists next to the credit-based one: under
`"Debit Based"` the net is debit minus credit (with the same exact-zero
normalization), and the caller's default, `main_analysis_type`, is
`"Credit Based"`, under which the net is credit minus debit. -/
theorem debit_based_strategy_available (r : Row) :
    calculate_net_amount r "Debit Based" = some (r.debit - r.credit) ∧
    (r.debit - r.credit = 0 → calculate_net_amount r "Debit Based" = some 0) ∧
    main_analysis_type = "Credit Based" ∧
    calculate_net_amount r main_analysis_type = some (r.credit - r.debit) := by
  refine ⟨?_, ?_, rfl, ?_⟩
  · unfold calculate_net_amount
    rw [if_neg (by decide), if_pos rfl]
    by_cases h : r.debit - r.credit = 0
    · rw [if_pos h, h]
    · rw [if_neg h]
  · intro hz
    unfold calculate_net_amount
    rw [if_neg (by decide), if_pos rfl, if_pos hz]
  · unfold calculate_net_amount main_analysis_type
    rw [if_pos rfl]
    by_cases h : r.credit - r.debit = 0
    · rw [if_pos h, h]
    · rw [if_neg h]

/-- Witness for C8 at a concrete record with debit = credit. -/
theorem debit_based_strategy_available_witness :
    calculate_net_amount ⟨⟨2024, 1, 5⟩, 7, 7⟩ "Debit Based" = some 0 :=
  (debit_based_strategy_available ⟨⟨2024, 1, 5⟩, 7, 7⟩).2.1 (by norm_num)

/-- C10: for any analysis-type string other than the two recognised ones,
`calculate_net_amount` falls through every branch and returns no value
(`None` in the source, `none` here), rather than raising or computing. -/
theorem unknown_analysis_type_returns_none (r : Row) (t : String)
    (h1 : t ≠ "Credit Based") (h2 : t ≠ "Debit Based") :
    calculate_net_amount r t = none := by
  unfold calculate_net_amount
  rw [if_neg h1, if_neg h2]

/-- Witness for C10 at a concrete record and analysis type. -/
theorem unknown_analysis_type_returns_none_witness :
    calculate_net_amount ⟨⟨2024, 1, 5⟩, 1, 2⟩ "Monthly" = none :=
  unknown_analysis_type_returns_none ⟨⟨2024, 1, 5⟩, 1, 2⟩ "Monthly"
    (by decide) (by decide)

/-- C4 counterexample: for the January/March input the merged monthly
table has 3 rows (resampling inserts the empty February bin) while only 2
distinct calendar months occur in the input, so the claimed equality
fails. -/
theorem merged_rowcount_gap_counterexample :
    (merged_monthly gap_rows).length = 3 ∧
    distinct_month_count gap_rows = 2 ∧
    (merged_monthly gap_rows).length ≠ distinct_month_count gap_rows := by
  with_unfolding_all decide

/-- C4 amended: for every non-empty input the merged monthly table has one
row per calendar month in the inclusive span from the earliest to the
latest record's month — the month-end bins produced by resampling — with
no duplicates; months inside the span with no records still get a row, so
the row count equals the number of distinct months present exactly when
the present months are contiguous. -/
theorem merged_rowcount_eq_span (rows : List Row) (hne : rows ≠ []) :
    (merged_monthly rows).length
      = (maxMonthKey rows - minMonthKey rows + 1).toNat := by
  have hmedlen : (innerMerge (fun p => monthLabel p.1.key) (fun m => monthLabel m.key)
      (innerMerge (fun s => monthLabel s.key) (fun a => monthLabel a.key)
        (compute_monthly_sum rows) (compute_monthly_average rows))
      (compute_monthly_median rows)).length
      = (innerMerge (fun s => monthLabel s.key) (fun a => monthLabel a.key)
        (compute_monthly_sum rows) (compute_monthly_average rows)).length := by
    apply innerMerge_length
    intro a ha
    exact median_label_count (monthly_sum_key_mem (innerMerge_mem_left _ _ _ _ a ha))
  have havglen : (innerMerge (fun s => monthLabel s.key) (fun a => monthLabel a.key)
      (compute_monthly_sum rows) (compute_monthly_average rows)).length
      = (compute_monthly_sum rows).length := by
    apply innerMerge_length
    intro a ha
    exact average_label_count (monthly_sum_key_mem ha)
  unfold merged_monthly
  rw [List.length_map, hmedlen, havglen]
  unfold compute_monthly_sum
  rw [List.length_map, spanKeys_length rows hne]

/-- Witness for C4 (amended) at the concrete January/March input. -/
theorem merged_rowcount_eq_span_witness :
    (merged_monthly gap_rows).length
      = (maxMonthKey gap_rows - minMonthKey gap_rows + 1).toNat :=
  merged_rowcount_eq_span gap_rows (by decide)

/-- C5 counterexample: for an empty input the guard `if not og_df.empty:`
skips the whole derivation-and-charts block, so the page is the bare
upload control — it is not a dashboard of empty tables with empty charts,
as the claim states. -/
theorem empty_input_no_charts_counterexample :
    main_render [] = RenderedPage.uploadOnly ∧
    main_render [] ≠ RenderedPage.dashboard (merged_monthly []) (compute_weekday_sum []) := by
  constructor
  · rfl
  · intro hcontra
    exact RenderedPage.noConfusion hcontra

/-- C5 amended: for an empty input no failure is raised, but the
derivation block is skipped entirely — no aggregate tables are computed
and no charts are rendered; the page shows only the upload control. -/
theorem empty_input_renders_upload_only :
    main_render [] = RenderedPage.uploadOnly := rfl

/-- C6: on the three scenario rows the derived net amounts are
`[30, 0, 20]` (the middle one by the exact-zero branch), the merged
monthly table gives sum 30 for "January 2024" and 20 for "February 2024",
and average and median 15 for January. -/
theorem scenario_pipeline_values :
    scenario_rows.map net_amount = [30, 0, 20] ∧
    (mergedLookup (merged_monthly scenario_rows) ⟨"January", 2024⟩).map
      (fun r => r.sum_net_amount) = some 30 ∧
    (mergedLookup (merged_monthly scenario_rows) ⟨"February", 2024⟩).map
      (fun r => r.sum_net_amount) = some 20 ∧
    (mergedLookup (merged_monthly scenario_rows) ⟨"January", 2024⟩).map
      (fun r => r.avg_net_amount) = some (some 15) ∧
    (mergedLookup (merged_monthly scenario_rows) ⟨"January", 2024⟩).map
      (fun r => r.median_net_amount) = some (some 15) := by
  with_unfolding_all decide

/-- C7: a record dated on a Saturday or Sunday (pandas weekday index 5 or
6) never contributes to the weekday aggregate: removing it from anywhere
in the input leaves `compute_weekday_sum` unchanged, because the function
first keeps only rows with weekday index 0–4. -/
theorem weekend_rows_never_contribute (pre post : List Row) (w : Row)
    (hw : dayofweek w.date = 5 ∨ dayofweek w.date = 6) :
    compute_weekday_sum (pre ++ w :: post) = compute_weekday_sum (pre ++ post) := by
  have hfilter : (pre ++ w :: post).filter (fun r => decide (dayofweek r.date < 5))
      = (pre ++ post).filter (fun r => decide (dayofweek r.date < 5)) := by
    rcases hw with h | h <;> simp [List.filter_append, List.filter_cons, h]
  unfold compute_weekday_sum
  rw [hfilter]

/-- Witness for C7: dropping the Saturday record 2024-01-20 leaves the
weekday table unchanged. -/
theorem weekend_rows_never_contribute_witness :
    compute_weekday_sum ([] ++ (⟨⟨2024, 1, 20⟩, 5, 5⟩ : Row) :: []) =
      compute_weekday_sum ([] ++ []) :=
  weekend_rows_never_contribute [] [] ⟨⟨2024, 1, 20⟩, 5, 5⟩ (Or.inl (by decide))

/-- C2: conservation law — the monthly sum aggregate, summed across all
months (including the zero-sum bins that resampling inserts for gap
months), equals the sum of `net_amount` over the entire input. -/
theorem monthly_sum_conservation (rows : List Row) :
    ((compute_monthly_sum rows).map (fun m => m.net_amount)).sum
      = (rows.map net_amount).sum := by
  unfold compute_monthly_sum
  rw [List.map_map]
  exact sum_partition net_amount (spanKeys rows) rows (spanKeys_nodup rows)
    (fun r hr => mem_spanKeys hr)

/-- C3: for every non-empty input the weekday table has exactly 5 rows in
the fixed order Monday–Friday, and any weekday with no record in the data
appears as a row of missing values (`none`), not zeros. -/
theorem weekday_table_shape (rows : List Row) (_hne : rows ≠ []) :
    (compute_weekday_sum rows).length = 5 ∧
    (compute_weekday_sum rows).map (fun w => w.day)
      = ["Monday", "Tuesday", "Wednesday", "Thursday", "Friday"] ∧
    ∀ w ∈ compute_weekday_sum rows,
      (∀ r ∈ rows, day_name_str (dayofweek r.date) ≠ w.day) →
        w.debit = none ∧ w.credit = none ∧ w.net_amount = none := by
  refine ⟨rfl, rfl, ?_⟩
  intro w hw habsent
  unfold compute_weekday_sum at hw
  obtain ⟨nm, hnm, rfl⟩ := List.mem_map.mp hw
  have hgrp : (rows.filter (fun r => decide (dayofweek r.date < 5))).filter
      (fun r => decide (day_name_str (dayofweek r.date) = nm)) = [] := by
    rw [List.filter_eq_nil_iff]
    intro r hr
    have hrmem : r ∈ rows := (List.mem_filter.mp hr).1
    simpa using habsent r hrmem
  simp [hgrp]

/-- Witness for C3 at a one-row input (2024-01-05, a Friday):
the table has 5 rows. -/
theorem weekday_table_shape_witness :
    (compute_weekday_sum [(⟨⟨2024, 1, 5⟩, 10, 40⟩ : Row)]).length = 5 :=
  (weekday_table_shape [⟨⟨2024, 1, 5⟩, 10, 40⟩] (by simp)).1

/-- C9: for an input whose rows carry no `credit` column, the net-amount
derivation step fails at the first access of the missing column (there is
no upfront schema check — the error is the `KeyError` raised by the access
itself), the hosting runtime surfaces the failure as an error message, and
the process does not crash. -/
theorem missing_credit_column_fails (rows : List RawRow) (hne : rows ≠ [])
    (hcol : ∀ r ∈ rows, ∀ p ∈ r, p.1 ≠ "credit") :
    apply_net_amount rows = Except.error ("KeyError: credit") ∧
    (∀ g : List (Option ℚ) → RenderedPage,
      run_app (apply_net_amount rows) g = AppOutcome.errorMessage ("KeyError: credit")) ∧
    (∀ g : List (Option ℚ) → RenderedPage,
      run_app (apply_net_amount rows) g ≠ AppOutcome.crashed) := by
  have happ : apply_net_amount rows = Except.error ("KeyError: credit") := by
    cases rows with
    | nil => exact absurd rfl hne
    | cons r rs =>
        have hfind : r.find? (fun p => decide (p.1 = "credit")) = none := by
          rw [List.find?_eq_none]
          intro p hp
          simpa using hcol r (List.mem_cons_self r rs) p hp
        have hcalc : calculate_net_amount_dyn r "Credit Based"
            = Except.error ("KeyError: credit") := by
          unfold calculate_net_amount_dyn getCol
          rw [if_pos rfl, hfind]
          rfl
        unfold apply_net_amount
        rw [hcalc]
  refine ⟨happ, fun g => ?_, fun g => ?_⟩
  · unfold run_app
    rw [happ]
  · unfold run_app
    rw [happ]
    exact fun hcontra => AppOutcome.noConfusion hcontra

/-- Witness for C9 at a concrete two-column row with no credit column. -/
theorem missing_credit_column_fails_witness :
    apply_net_amount [[("date", 20240105), ("debit", 5)]]
      = Except.error ("KeyError: credit") :=
  (missing_credit_column_fails [[("date", 20240105), ("debit", 5)]]
    (by simp) (by decide)).1

end Dashboard
